import Mathlib

/-!
Verification of the multi-query RAG notebook (`langchain-multi-query.ipynb`).

The notebook's own code cells define `trim_metadata`, `LineListOutputParser.parse`,
the QA prompt template and the context-joining logic; those are embedded below
directly from the source.  The fan-out retrieval and first-occurrence
deduplication are performed by the orchestration library the notebook calls
(`MultiQueryRetriever.get_relevant_documents`); their code is not part of the
repository, so they are modelled from the specification as indicated on each
definition.
-/

namespace MultiQueryRag

/-- A retrieved document: a stable identity plus its text content.
In the notebook the identity is the string `"{id}-{chunk-id}"` used as the
vector-store key, and the text is the `page_content` field. -/
structure Document where
  id : String
  pageContent : String
deriving DecidableEq, Repr

/-- Modelled from the spec: a `RetrievalResult` is the ordered sequence of
(Document, relevance score) pairs returned by one similarity search, already
sorted by the retrieval collaborator. -/
abbrev RetrievalResult := List (Document × Int)

/-- The documents of a sequence of RetrievalResults, flattened in input order
(results in input order; within each result, matches in the given order). -/
def flattenDocs (results : List RetrievalResult) : List Document :=
  (results.map (fun r => (List.map Prod.fst r : List Document))).flatten

/-- Modelled from the spec: the Result Merger's deduplication loop, which the
notebook delegates to the library's `get_relevant_documents`.  It walks the
flattened documents keeping a set `seen` of identities already emitted; a
document is kept only the first time its identity appears. -/
def dedupById : List Document → List String → List Document
  | [], _ => []
  | d :: ds, seen =>
    if d.id ∈ seen then dedupById ds seen
    else d :: dedupById ds (d.id :: seen)

/-- Modelled from the spec: `merge(results)` deduplicates the flattened
documents by identity, first occurrence wins. -/
def merge (results : List RetrievalResult) : List Document :=
  dedupById (flattenDocs results) []

/-- Specification-side restatement of first-occurrence deduplication: keep the
head, drop every later occurrence of its identity, recurse.  Used to check that
`merge` refines the spec's words. -/
def specFirst : List Document → List Document
  | [] => []
  | d :: ds => d :: specFirst (ds.filter (fun e => !(e.id == d.id)))
termination_by l => l.length
decreasing_by
  simp only [List.length_cons]
  exact Nat.lt_succ_of_le (List.length_filter_le _ _)

/-- The number of duplicate occurrences in a document stream: occurrences whose
identity was already seen earlier (or is in the initial `seen` set). -/
def dupCount : List Document → List String → Nat
  | [], _ => 0
  | d :: ds, seen =>
    if d.id ∈ seen then dupCount ds seen + 1
    else dupCount ds (d.id :: seen)

theorem dedupById_ids_not_seen {l : List Document} {seen : List String} :
    ∀ i ∈ (dedupById l seen).map Document.id, i ∉ seen := by
  induction l generalizing seen with
  | nil => simp [dedupById]
  | cons d ds ih =>
    intro i hi
    by_cases h : d.id ∈ seen
    · exact ih i (by simpa [dedupById, h] using hi)
    · simp only [dedupById, h, if_false, List.map_cons, List.mem_cons] at hi
      rcases hi with rfl | hi
      · exact h
      · have := ih i hi
        intro hmem
        exact this (List.mem_cons_of_mem _ hmem)

theorem dedupById_ids_nodup (l : List Document) (seen : List String) :
    ((dedupById l seen).map Document.id).Nodup := by
  induction l generalizing seen with
  | nil => simp [dedupById]
  | cons d ds ih =>
    by_cases h : d.id ∈ seen
    · simpa [dedupById, h] using ih seen
    · simp only [dedupById, h, if_false, List.map_cons, List.nodup_cons]
      refine ⟨?_, ih (d.id :: seen)⟩
      intro hmem
      exact dedupById_ids_not_seen _ hmem (List.mem_cons_self _ _)

theorem mem_dedupById_ids {l : List Document} {seen : List String} {i : String} :
    i ∈ (dedupById l seen).map Document.id ↔ i ∈ l.map Document.id ∧ i ∉ seen := by
  induction l generalizing seen with
  | nil => simp [dedupById]
  | cons d ds ih =>
    by_cases h : d.id ∈ seen
    · rw [show dedupById (d :: ds) seen = dedupById ds seen from by simp [dedupById, h]]
      rw [ih]
      by_cases hid : i = d.id <;> simp [hid, h]
    · rw [show dedupById (d :: ds) seen = d :: dedupById ds (d.id :: seen) from by
        simp [dedupById, h]]
      simp only [List.map_cons, List.mem_cons, ih]
      by_cases hid : i = d.id <;> simp [hid, h]

theorem dedupById_length_add_dupCount (l : List Document) (seen : List String) :
    (dedupById l seen).length + dupCount l seen = l.length := by
  induction l generalizing seen with
  | nil => simp [dedupById, dupCount]
  | cons d ds ih =>
    by_cases h : d.id ∈ seen
    · have hrec := ih seen
      simp only [dedupById, dupCount, h, if_true, List.length_cons]
      omega
    · have hrec := ih (d.id :: seen)
      simp only [dedupById, dupCount, h, if_false, List.length_cons]
      omega

theorem dedupById_length_le (l : List Document) (seen : List String) :
    (dedupById l seen).length ≤ l.length := by
  have := dedupById_length_add_dupCount l seen
  omega

theorem dedupById_eq_specFirst_filter (l : List Document) (seen : List String) :
    dedupById l seen = specFirst (l.filter (fun e => !(decide (e.id ∈ seen)))) := by
  induction l generalizing seen with
  | nil => simp [dedupById, specFirst]
  | cons d ds ih =>
    by_cases h : d.id ∈ seen
    · simp [dedupById, h, ih, List.filter_cons]
    · have h1 : dedupById (d :: ds) seen = d :: dedupById ds (d.id :: seen) := by
        simp [dedupById, h]
      have h2 : (d :: ds).filter (fun e => !(decide (e.id ∈ seen)))
          = d :: ds.filter (fun e => !(decide (e.id ∈ seen))) := by
        simp [List.filter_cons, h]
      rw [h1, h2]
      simp only [specFirst]
      rw [ih (d.id :: seen), List.filter_filter]
      congr 1
      congr 1
      apply List.filter_congr
      intro x hx
      by_cases hxd : x.id = d.id <;> simp [hxd, List.mem_cons]

/-- Modelled from the spec: the Multi-Retriever's fan-out loop, which the
notebook delegates to the library retriever.  `search q k` is the similarity
-search collaborator (`none` models a failed or timed-out search).  One search
is issued per query, in input order; a failed search degrades to the empty
RetrievalResult.  The second component is the log of issued search calls. -/
def retrieve_all (search : String → Nat → Option RetrievalResult) (top_k : Nat) :
    List String → List RetrievalResult × List String
  | [] => ([], [])
  | q :: qs =>
    let r := (search q top_k).getD []
    let rest := retrieve_all search top_k qs
    (r :: rest.1, q :: rest.2)

theorem retrieve_all_eq (search : String → Nat → Option RetrievalResult)
    (top_k : Nat) (queries : List String) :
    retrieve_all search top_k queries
      = (queries.map (fun q => (search q top_k).getD []), queries) := by
  induction queries with
  | nil => rfl
  | cons q qs ih => simp [retrieve_all, ih]

/-- The set of whitespace characters stripped by Python's `str.strip()`
(ASCII portion). -/
def isPySpace (c : Char) : Bool :=
  c = ' ' || c = '\t' || c = '\n' || c = '\r' || c = '\x0b' || c = '\x0c'

/-- Python's `text.strip()` on a character list: drop leading and trailing
whitespace. -/
def pyStrip (s : List Char) : List Char :=
  ((s.dropWhile isPySpace).reverse.dropWhile isPySpace).reverse

/-- Python's `text.split("\n")` on a character list: split on every newline,
keeping empty segments; on the empty string it returns one empty segment. -/
def splitNl : List Char → List (List Char)
  | [] => [[]]
  | c :: cs =>
    match splitNl cs with
    | [] => [[]]
    | l :: ls => if c = '\n' then [] :: l :: ls else (c :: l) :: ls

/-- Re-join split segments with newlines (used to state that splitting loses
no characters). -/
def joinNl : List (List Char) → List Char
  | [] => []
  | [l] => l
  | l :: ls => l ++ '\n' :: joinNl ls

theorem splitNl_ne_nil (s : List Char) : splitNl s ≠ [] := by
  cases s with
  | nil => simp [splitNl]
  | cons c cs =>
    simp only [splitNl]
    cases splitNl cs with
    | nil => simp
    | cons l ls => by_cases h : c = '\n' <;> simp [h]

theorem joinNl_splitNl (s : List Char) : joinNl (splitNl s) = s := by
  induction s with
  | nil => rfl
  | cons c cs ih =>
    rcases hs : splitNl cs with _ | ⟨l, ls⟩
    · exact absurd hs (splitNl_ne_nil cs)
    · rw [hs] at ih
      by_cases h : c = '\n'
      · subst h
        have hstep : splitNl ('\n' :: cs) = [] :: l :: ls := by
          simp [splitNl, hs]
        rw [hstep]
        simpa [joinNl] using ih
      · have hstep : splitNl (c :: cs) = (c :: l) :: ls := by
          simp [splitNl, hs, h]
        rw [hstep]
        cases ls with
        | nil =>
          simp only [joinNl] at ih
          simp [joinNl, ih]
        | cons l2 ls2 =>
          simp only [joinNl] at ih ⊢
          simpa [List.cons_append] using congrArg (c :: ·) ih

/-- `LineListOutputParser.parse` from the notebook (cell-54):
`text.strip().split("\n")`, wrapped into a `LineList`.  It performs no check
on the number or non-emptiness of the lines and cannot fail. -/
def parse (text : String) : List String :=
  (splitNl (pyStrip text.toList)).map String.mk

/-- The query-generation prompt template of cell-54 up to its single
substitution slot; the template ends with the slot followed by a newline. -/
def queryTemplatePre : String :=
  "\nYour task is to generate 3 different search queries that aim to\nanswer the user question from multiple perspectives. The user questions\nare focused on traveling to Puerto Rico and visiting the most iconic places in the island. You must make sure to provide a variety of search queries that cover different\noptions regarding the user itinerary.\nEach query MUST tackle the question from a different viewpoint, we\nwant to get a variety of RELEVANT search results.\nProvide these alternative questions separated by newlines.\nOriginal question: "

/-- `QUERY_PROMPT.format(question=q)`: the template with the question
substituted into its single slot. -/
def fmtQuery (question : String) : String :=
  queryTemplatePre ++ question ++ "\n"

/-- The Query Expander as the notebook builds it: format the prompt, call the
text-generation collaborator `gen` once, and run `LineListOutputParser.parse`
on the reply. -/
def expand (gen : String → String) (question : String) : List String :=
  parse (gen (fmtQuery question))

/-- The `QA_PROMPT` template of cell-41 up to its first substitution slot
(the context block). -/
def qaTemplatePre : String :=
  "You are a helpful assistant who answers user queries using the\n    contexts provided. If the question cannot be answered using the information\n    provided say \"I don\x27t know\".\n\n    Contexts:\n    "

/-- The `QA_PROMPT` template of cell-41 between its context slot and its
question slot. -/
def qaTemplateMid : String :=
  "\n\n    Question: "

/-- `QA_PROMPT.format(contexts=..., query=...)`: the template with the context
block and the question substituted into their slots. -/
def formatQAPrompt (query contexts : String) : String :=
  qaTemplatePre ++ contexts ++ qaTemplateMid ++ query

/-- The notebook's `qa_chain` (cell-41, an `LLMChain` over `QA_PROMPT`):
format the prompt and invoke the text-generation collaborator `gen` once.
The second component is the log of prompts sent to the collaborator. -/
def qa_chain (gen : String → String) (query contexts : String) :
    String × List String :=
  (gen (formatQAPrompt query contexts), [formatQAPrompt query contexts])

/-- The context block of cells 42 and 45:
`"\n---\n".join([d.page_content for d in docs])`. -/
def joinContexts (docs : List Document) : String :=
  String.intercalate "\n---\n" (docs.map Document.pageContent)

/-- The Answer Composer as the notebook assembles it (cells 42/45): build the
context block from the retrieved documents and run `qa_chain` on it. -/
def compose (gen : String → String) (question : String) (docs : List Document) :
    String × List String :=
  qa_chain gen question (joinContexts docs)

/-- Specification-side restatement of the context block: the documents' text
contents in order, separated by the fixed `"\n---\n"` delimiter. -/
def specJoin : List Document → String
  | [] => ""
  | [d] => d.pageContent
  | d :: ds => d.pageContent ++ "\n---\n" ++ specJoin ds

/-- The tail of an intercalation: separator-prefixed copies of the strings. -/
def sepTail (sep : String) : List String → String
  | [] => ""
  | a :: as => sep ++ a ++ sepTail sep as

theorem intercalate_go_spec (sep : String) :
    ∀ (as : List String) (acc : String),
      String.intercalate.go acc sep as = acc ++ sepTail sep as := by
  intro as
  induction as with
  | nil => intro acc; simp [String.intercalate.go, sepTail]
  | cons a as ih =>
    intro acc
    simp only [String.intercalate.go, sepTail, ih, String.append_assoc]

theorem intercalate_eq_sepTail (sep : String) (a : String) (as : List String) :
    String.intercalate sep (a :: as) = a ++ sepTail sep as := by
  simp [String.intercalate, intercalate_go_spec]

theorem joinContexts_eq_specJoin (docs : List Document) :
    joinContexts docs = specJoin docs := by
  induction docs with
  | nil => rfl
  | cons d ds ih =>
    cases ds with
    | nil =>
      simp [joinContexts, specJoin, intercalate_eq_sepTail, sepTail]
    | cons d2 ds2 =>
      simp only [joinContexts, List.map_cons, intercalate_eq_sepTail, sepTail] at ih ⊢
      have hspec : specJoin (d :: d2 :: ds2)
          = d.pageContent ++ "\n---\n" ++ specJoin (d2 :: ds2) := rfl
      rw [hspec, ← ih]
      simp [String.append_assoc]

/-- A JSON-serialisable metadata value as the notebook stores them
(file names and summaries are strings; numeric fields are integers). -/
inductive JValue where
  | jstr : String → JValue
  | jnum : Int → JValue
deriving DecidableEq, Repr

/-- A Python dict in insertion order: `metadata.items()` iterates pairs in
this order. -/
abbrev Metadata := List (String × JValue)

/-- The escapes `json.dumps` applies inside string literals (quote, backslash
and the common control characters; other characters are emitted as is). -/
def escapeChar (c : Char) : String :=
  if c = '"' then "\\\""
  else if c = '\\' then "\\\\"
  else if c = '\n' then "\\n"
  else if c = '\t' then "\\t"
  else if c = '\r' then "\\r"
  else String.singleton c

/-- `json.dumps` of a string: quoted, with characters escaped. -/
def dumpsStr (s : String) : String :=
  "\"" ++ String.join (s.toList.map escapeChar) ++ "\""

/-- `json.dumps` of a single value. -/
def dumpsVal : JValue → String
  | .jstr s => dumpsStr s
  | .jnum n => toString n

/-- One `key: value` item as `json.dumps` renders it (default separators,
so a `": "` between key and value). -/
def dumpsEntry (kv : String × JValue) : String :=
  dumpsStr kv.1 ++ ": " ++ dumpsVal kv.2

/-- Comma-join of rendered items (default `", "` item separator). -/
def joinComma : List String → String
  | [] => ""
  | [e] => e
  | e :: es => e ++ ", " ++ joinComma es

/-- `json.dumps` of a dict: braces around the comma-joined items. -/
def dumps (m : Metadata) : String :=
  "\x7b" ++ joinComma (m.map dumpsEntry) ++ "\x7d"

/-- The truncation loop inside `trim_metadata` (cell-25): items are added in
iteration order until the size check fails, at which point the loop breaks. -/
def trimLoop (max_size : Nat) : Metadata → Metadata → Metadata
  | [], trimmed => trimmed
  | kv :: rest, trimmed =>
    if (dumps trimmed).length + (dumps [kv]).length > max_size then trimmed
    else trimLoop max_size rest (trimmed ++ [kv])

/-- `trim_metadata` from the notebook (cell-25): return the metadata unchanged
when its JSON serialisation fits in `max_size`, otherwise rebuild it key by key
and stop before the size check fails (the notebook's default `max_size` is
40960). -/
def trim_metadata (metadata : Metadata) (max_size : Nat) : Metadata :=
  if (dumps metadata).length ≤ max_size then metadata
  else trimLoop max_size metadata []

theorem joinComma_append_singleton (es : List String) (e : String) :
    joinComma (es ++ [e])
      = if es.isEmpty then e else joinComma es ++ ", " ++ e := by
  induction es with
  | nil => rfl
  | cons a as ih =>
    cases as with
    | nil => rfl
    | cons b bs =>
      have h1 : joinComma ((a :: b :: bs) ++ [e])
          = a ++ ", " ++ joinComma ((b :: bs) ++ [e]) := rfl
      have h2 : joinComma (a :: b :: bs) = a ++ ", " ++ joinComma (b :: bs) := rfl
      simp only [h1, ih, h2, List.isEmpty_cons, if_false]
      simp [String.append_assoc]

theorem dumps_append_singleton_length (m : Metadata) (kv : String × JValue) :
    (dumps (m ++ [kv])).length
      = (dumps m).length + (dumpsEntry kv).length + (if m.isEmpty then 0 else 2) := by
  cases m with
  | nil =>
    have h1 : dumps ([] ++ [kv]) = "\x7b" ++ dumpsEntry kv ++ "\x7d" := rfl
    have h2 : (dumps ([] : Metadata)).length = 2 := by decide
    rw [h1]
    simp only [String.length_append, h2, List.isEmpty_nil, if_true]
    have h3 : ("\x7b").length = 1 := rfl
    have h4 : ("\x7d").length = 1 := rfl
    omega
  | cons a as =>
    simp only [dumps, List.map_append, List.map_cons, joinComma_append_singleton,
      List.isEmpty_cons, if_false, List.map_nil]
    simp only [List.isEmpty_cons, Bool.false_eq_true, if_false,
      String.length_append]
    have : (", ").length = 2 := rfl
    omega

theorem dumps_singleton_length (kv : String × JValue) :
    (dumps [kv]).length = 2 + (dumpsEntry kv).length := by
  simp only [dumps, List.map_cons, List.map_nil, joinComma, String.length_append]
  have h1 : ("\x7b").length = 1 := rfl
  have h2 : ("\x7d").length = 1 := rfl
  omega

theorem trimLoop_dumps_le (max_size : Nat) :
    ∀ (rest trimmed : Metadata), (dumps trimmed).length ≤ max_size →
      (dumps (trimLoop max_size rest trimmed)).length ≤ max_size := by
  intro rest
  induction rest with
  | nil => intro trimmed h; simpa [trimLoop] using h
  | cons kv rest ih =>
    intro trimmed h
    by_cases hguard : (dumps trimmed).length + (dumps [kv]).length > max_size
    · simpa [trimLoop, hguard] using h
    · rw [trimLoop, if_neg hguard]
      apply ih
      have hlen := dumps_append_singleton_length trimmed kv
      have hsing := dumps_singleton_length kv
      by_cases hnil : trimmed.isEmpty <;> simp [hnil] at hlen <;> omega

theorem trimLoop_prefix (max_size : Nat) :
    ∀ (rest trimmed : Metadata),
      ∃ t, trimmed ++ rest = trimLoop max_size rest trimmed ++ t := by
  intro rest
  induction rest with
  | nil => intro trimmed; exact ⟨[], by simp [trimLoop]⟩
  | cons kv rest ih =>
    intro trimmed
    by_cases hguard : (dumps trimmed).length + (dumps [kv]).length > max_size
    · exact ⟨kv :: rest, by simp [trimLoop, hguard]⟩
    · obtain ⟨t, ht⟩ := ih (trimmed ++ [kv])
      refine ⟨t, ?_⟩
      rw [trimLoop, if_neg hguard, ← ht]
      simp

theorem flattenDocs_length (results : List RetrievalResult) :
    (flattenDocs results).length = (results.map List.length).sum := by
  simp [flattenDocs, List.length_flatten, List.map_map, Function.comp_def]

theorem merge_length_sub (results : List RetrievalResult) :
    (merge results).length
      = (flattenDocs results).length - dupCount (flattenDocs results) [] := by
  have := dedupById_length_add_dupCount (flattenDocs results) []
  unfold merge
  omega

theorem getElemBang_map {α β : Type} [Inhabited α] [Inhabited β]
    (f : α → β) (l : List α) (i : Nat) (h : i < l.length) :
    (l.map f)[i]! = f l[i]! := by
  rw [getElem!_pos (l.map f) i (by simpa using h), getElem!_pos l i h,
    List.getElem_map]

/-- Claim C2: `merge` adds each document at the first position where its
identity occurs — results in input order, matches in the given order within
each result — and drops every later occurrence of the same identity, so the
output equals the spec's first-occurrence-wins traversal and contains no two
entries with the same identity. -/
theorem claim2_merge_first_occurrence (results : List RetrievalResult) :
    merge results = specFirst (flattenDocs results) ∧
    ((merge results).map Document.id).Nodup := by
  constructor
  · have h := dedupById_eq_specFirst_filter (flattenDocs results) []
    simpa [merge] using h
  · exact dedupById_ids_nodup (flattenDocs results) []

/-- Claim C4: the size of the merged output equals the total number of matches
minus the number of duplicate occurrences (occurrences whose identity was seen
earlier); in particular with three queries of three matches each and two
duplicate occurrences the merged set has exactly 9 − 2 = 7 documents. -/
theorem claim4_merge_size_arithmetic :
    (∀ results : List RetrievalResult,
      (merge results).length
        = (flattenDocs results).length - dupCount (flattenDocs results) []) ∧
    (∀ results : List RetrievalResult,
      results.map List.length = [3, 3, 3] →
      dupCount (flattenDocs results) [] = 2 →
      (merge results).length = 7) := by
  refine ⟨merge_length_sub, ?_⟩
  intro results h3 h2
  rw [merge_length_sub, flattenDocs_length, h3, h2]
  rfl

/-- Witness for claim C4: three RetrievalResults of three matches each, with
identities `a` and `b` repeating once each (two duplicate occurrences), merge
to exactly seven documents. -/
theorem claim4_witness :
    (merge [[(⟨"a", "ta"⟩, 3), (⟨"b", "tb"⟩, 2), (⟨"c", "tc"⟩, 1)],
            [(⟨"d", "td"⟩, 3), (⟨"e", "te"⟩, 2), (⟨"a", "ta"⟩, 1)],
            [(⟨"f", "tf"⟩, 3), (⟨"g", "tg"⟩, 2), (⟨"b", "tb"⟩, 1)]]).length = 7 :=
  claim4_merge_size_arithmetic.2
    [[(⟨"a", "ta"⟩, 3), (⟨"b", "tb"⟩, 2), (⟨"c", "tc"⟩, 1)],
     [(⟨"d", "td"⟩, 3), (⟨"e", "te"⟩, 2), (⟨"a", "ta"⟩, 1)],
     [(⟨"f", "tf"⟩, 3), (⟨"g", "tg"⟩, 2), (⟨"b", "tb"⟩, 1)]]
    (by decide) (by decide)

/-- Claim C5: when two RetrievalResult sequences carry the same multiset of
documents in different arrangements, the merged outputs have the same set of
document identities (the surfaced order may differ). -/
theorem claim5_merge_membership_perm_invariant
    (results1 results2 : List RetrievalResult)
    (hperm : (flattenDocs results1).Perm (flattenDocs results2)) :
    ∀ i : String,
      i ∈ (merge results1).map Document.id ↔ i ∈ (merge results2).map Document.id := by
  intro i
  have h1 : i ∈ (merge results1).map Document.id
      ↔ i ∈ (flattenDocs results1).map Document.id := by
    simpa [merge] using (@mem_dedupById_ids (flattenDocs results1) [] i)
  have h2 : i ∈ (merge results2).map Document.id
      ↔ i ∈ (flattenDocs results2).map Document.id := by
    simpa [merge] using (@mem_dedupById_ids (flattenDocs results2) [] i)
  rw [h1, h2]
  exact (hperm.map Document.id).mem_iff

/-- Witness for claim C5: the same two documents distributed differently over
the RetrievalResults give merged outputs with the same identity membership. -/
theorem claim5_witness :
    ("a" ∈ (merge [[(⟨"a", "ta"⟩, 1), (⟨"b", "tb"⟩, 2)]]).map Document.id
      ↔ "a" ∈ (merge [[(⟨"b", "tb"⟩, 2)], [(⟨"a", "ta"⟩, 1)]]).map Document.id) :=
  claim5_merge_membership_perm_invariant
    [[(⟨"a", "ta"⟩, 1), (⟨"b", "tb"⟩, 2)]]
    [[(⟨"b", "tb"⟩, 2)], [(⟨"a", "ta"⟩, 1)]]
    (by decide) "a"

/-- Claim C3: `retrieve_all` returns exactly one RetrievalResult per input
query, in input order; the call log contains exactly one search per query, in
issue order; each output entry is determined by its own query's search alone,
and a failed search yields an empty entry rather than an omitted one. -/
theorem claim3_retrieve_all_shape
    (search : String → Nat → Option RetrievalResult) (top_k : Nat)
    (queries : List String) :
    (retrieve_all search top_k queries).1.length = queries.length ∧
    (retrieve_all search top_k queries).2 = queries ∧
    (∀ i, i < queries.length →
      (retrieve_all search top_k queries).1[i]! = (search queries[i]! top_k).getD []) ∧
    (∀ i, i < queries.length → search queries[i]! top_k = none →
      (retrieve_all search top_k queries).1[i]! = []) := by
  refine ⟨?_, ?_, ?_, ?_⟩
  · rw [retrieve_all_eq]
    simp
  · rw [retrieve_all_eq]
  · intro i hi
    rw [retrieve_all_eq]
    exact getElemBang_map (fun q => (search q top_k).getD []) queries i hi
  · intro i hi hfail
    rw [retrieve_all_eq]
    rw [getElemBang_map (fun q => (search q top_k).getD []) queries i hi, hfail]
    rfl

/-- Witness for claim C3: with a collaborator that fails on the query
`"bad"`, the batch of two queries still yields two entries, the failed one
empty. -/
theorem claim3_witness :
    (retrieve_all
        (fun q _ => if q = "bad" then none
          else some [((⟨"x", "tx"⟩ : Document), (1 : Int))])
        3 ["good", "bad"]).1.length = 2 ∧
    (retrieve_all
        (fun q _ => if q = "bad" then none
          else some [((⟨"x", "tx"⟩ : Document), (1 : Int))])
        3 ["good", "bad"]).1[1]! = [] := by
  have h := claim3_retrieve_all_shape
    (fun q _ => if q = "bad" then none
      else some [((⟨"x", "tx"⟩ : Document), (1 : Int))])
    3 ["good", "bad"]
  exact ⟨h.1, h.2.2.2 1 (by decide) (by decide)⟩

/-- Claim C8: whenever every successful search returns at most `top_k`
matches, the merged result set built from `retrieve_all`'s outputs contains no
duplicate identities and has size at most `N × top_k`, `N` being the number of
expanded queries. -/
theorem claim8_merged_invariant
    (search : String → Nat → Option RetrievalResult) (top_k : Nat)
    (queries : List String)
    (hbound : ∀ q r, search q top_k = some r → r.length ≤ top_k) :
    ((merge (retrieve_all search top_k queries).1).map Document.id).Nodup ∧
    (merge (retrieve_all search top_k queries).1).length
      ≤ queries.length * top_k := by
  constructor
  · exact dedupById_ids_nodup _ _
  · have h1 : (merge (retrieve_all search top_k queries).1).length
        ≤ (flattenDocs (retrieve_all search top_k queries).1).length :=
      dedupById_length_le _ _
    have h2 : (flattenDocs (retrieve_all search top_k queries).1).length
        = (((retrieve_all search top_k queries).1).map List.length).sum :=
      flattenDocs_length _
    have h3 : ∀ x ∈ ((retrieve_all search top_k queries).1).map List.length,
        x ≤ top_k := by
      intro x hx
      rw [retrieve_all_eq] at hx
      simp only [List.map_map, List.mem_map, Function.comp_def] at hx
      obtain ⟨q, _, rfl⟩ := hx
      cases hq : search q top_k with
      | none => simp [hq]
      | some r => simpa [hq] using hbound q r hq
    have h4 := List.sum_le_card_nsmul
      (((retrieve_all search top_k queries).1).map List.length) top_k h3
    have h5 : (((retrieve_all search top_k queries).1).map List.length).length
        = queries.length := by
      rw [retrieve_all_eq]
      simp
    rw [List.length_map] at h4
    have h6 : ((retrieve_all search top_k queries).1).length = queries.length := by
      rw [retrieve_all_eq]
      simp
    rw [h6, smul_eq_mul] at h4
    omega

/-- Witness for claim C8: a constant collaborator returning one match per
search, two queries, `top_k = 3`: the merged set has no duplicate identities
and at most 2 × 3 documents. -/
theorem claim8_witness :
    ((merge (retrieve_all
        (fun _ _ => some [((⟨"x", "tx"⟩ : Document), (1 : Int))])
        3 ["q1", "q2"]).1).map Document.id).Nodup ∧
    (merge (retrieve_all
        (fun _ _ => some [((⟨"x", "tx"⟩ : Document), (1 : Int))])
        3 ["q1", "q2"]).1).length ≤ 2 * 3 := by
  have h := claim8_merged_invariant
    (fun _ _ => some [((⟨"x", "tx"⟩ : Document), (1 : Int))]) 3 ["q1", "q2"]
    (by intro q r hr; injection hr with hr2; rw [← hr2]; decide)
  exact h

/-- Claim C6: when no documents were retrieved the Answer Composer still makes
exactly one generation call, and the prompt sent is the instruction template
formatted with the question and the empty context block (the join of zero
document texts is the empty string). -/
theorem claim6_compose_empty_context (gen : String → String) (question : String) :
    joinContexts ([] : List Document) = "" ∧
    (compose gen question []).2 = [formatQAPrompt question ""] ∧
    (compose gen question []).2.length = 1 ∧
    (compose gen question []).1 = gen (formatQAPrompt question "") := by
  refine ⟨rfl, ?_, rfl, ?_⟩ <;> rfl

/-- Claim C7: the Answer Composer builds its context block by joining the
documents' text contents in order with the fixed `"\n---\n"` delimiter,
substitutes the question and the block into the instruction template, and
sends exactly one call to the generation collaborator. -/
theorem claim7_compose_builds_context (gen : String → String)
    (question : String) (docs : List Document) :
    joinContexts docs = specJoin docs ∧
    (compose gen question docs).2 = [formatQAPrompt question (specJoin docs)] ∧
    (compose gen question docs).2.length = 1 ∧
    (compose gen question docs).1 = gen (formatQAPrompt question (specJoin docs)) := by
  have hjoin := joinContexts_eq_specJoin docs
  refine ⟨hjoin, ?_, rfl, ?_⟩ <;>
    simp [compose, qa_chain, hjoin]

/-- Counterexample to claim C1 as stated: when the generation collaborator's
reply holds a single non-empty line, the notebook's expander neither returns
three non-empty strings (the count its template requests) nor fails with any
error — `LineListOutputParser.parse` has no count check, so `expand` returns
the one-element list. -/
theorem claim1_counterexample :
    expand (fun _ => "only one line") "tell me about Puerto Rico?"
        = ["only one line"] ∧
    (expand (fun _ => "only one line") "tell me about Puerto Rico?").length ≠ 3 := by
  constructor <;> decide

/-- Claim C1 as amended: the expander cannot fail — no
`MalformedGenerationError` (or any count check) exists in the code; `expand`
always returns the newline-split of the stripped reply, and only when that
split consists of exactly `n` non-empty lines does `expand` return exactly `n`
non-empty strings. -/
theorem claim1_expand_amended (gen : String → String) (question : String)
    (n : Nat)
    (hcount : (parse (gen (fmtQuery question))).length = n)
    (hlines : ∀ l ∈ parse (gen (fmtQuery question)), l ≠ "") :
    expand gen question = parse (gen (fmtQuery question)) ∧
    (expand gen question).length = n ∧
    ∀ l ∈ expand gen question, l ≠ "" := by
  exact ⟨rfl, hcount, hlines⟩

/-- Witness for the amended claim C1: a collaborator that replies with three
non-empty lines makes `expand` return exactly those three non-empty queries. -/
theorem claim1_witness :
    (expand (fun _ => "q1\nq2\nq3") "tell me about Puerto Rico?").length = 3 ∧
    ∀ l ∈ expand (fun _ => "q1\nq2\nq3") "tell me about Puerto Rico?", l ≠ "" := by
  have h := claim1_expand_amended (fun _ => "q1\nq2\nq3")
    "tell me about Puerto Rico?" 3 (by decide) (by decide)
  exact ⟨h.2.1, h.2.2⟩

/-- Claim C10: `LineListOutputParser.parse` is total (it never raises whatever
the collaborator produced); its result is the newline-split of the stripped
input — re-joining the split with newlines recovers the stripped input, the
split always has at least one element, interior blank lines are kept as empty
strings (witnessed on `"a\n\nb"`), and no line count is checked. -/
theorem claim10_parse_total_split (text : String) :
    1 ≤ (parse text).length ∧
    joinNl (splitNl (pyStrip text.toList)) = pyStrip text.toList ∧
    parse "a\n\nb" = ["a", "", "b"] := by
  refine ⟨?_, joinNl_splitNl _, by decide⟩
  have h := splitNl_ne_nil (pyStrip text.toList)
  simp only [parse, List.length_map]
  exact List.length_pos.mpr h

/-- Counterexample to claim C9 as stated: with `max_size = 0` and a metadata
mapping that does not fit, `trim_metadata` returns the empty mapping, whose
JSON serialisation `"\x7b\x7d"` has length 2 > 0 — so the output's
serialisation does not always fit within `max_size`. -/
theorem claim9_counterexample :
    dumps (trim_metadata [("a", JValue.jnum 1)] 0) = "\x7b\x7d" ∧
    ¬ (dumps (trim_metadata [("a", JValue.jnum 1)] 0)).length ≤ 0 := by
  constructor <;> decide

/-- Claim C9 as amended: the kept pairs are always an unaltered prefix of the
input (so every output pair appears identically in the input), a mapping that
already fits is returned unchanged, and the output's JSON serialisation fits
within `max_size` provided `max_size` is at least 2 — the serialised length of
the empty mapping, which the trim loop may return. -/
theorem claim9_trim_metadata_amended (metadata : Metadata) (max_size : Nat) :
    ((dumps metadata).length ≤ max_size → trim_metadata metadata max_size = metadata) ∧
    (∃ t, metadata = trim_metadata metadata max_size ++ t) ∧
    (2 ≤ max_size → (dumps (trim_metadata metadata max_size)).length ≤ max_size) := by
  refine ⟨?_, ?_, ?_⟩
  · intro hfit
    simp [trim_metadata, hfit]
  · by_cases hfit : (dumps metadata).length ≤ max_size
    · exact ⟨[], by simp [trim_metadata, hfit]⟩
    · obtain ⟨t, ht⟩ := trimLoop_prefix max_size metadata []
      refine ⟨t, ?_⟩
      rw [trim_metadata, if_neg hfit]
      simpa using ht
  · intro hms
    by_cases hfit : (dumps metadata).length ≤ max_size
    · simp [trim_metadata, hfit]
    · rw [trim_metadata, if_neg hfit]
      apply trimLoop_dumps_le max_size
      have : (dumps ([] : Metadata)).length = 2 := by decide
      omega

/-- Witness for the amended claim C9: a small mapping under the notebook's
default budget of 40960 is returned unchanged and its serialisation fits. -/
theorem claim9_witness :
    trim_metadata [("a", JValue.jnum 1)] 40960 = [("a", JValue.jnum 1)] ∧
    (dumps (trim_metadata [("a", JValue.jnum 1)] 40960)).length ≤ 40960 := by
  have h := claim9_trim_metadata_amended [("a", JValue.jnum 1)] 40960
  exact ⟨h.1 (by decide), h.2.2 (by decide)⟩
